import Mathlib

/-!
Verification of the stockpile pipeline-orchestration engine against its
natural-language specification.  The Python sources under `src/` are shallowly
embedded: pure functions become Lean functions, stateful methods become
explicit state passing, exceptions become `Except`, machine floats become `ℚ`,
and the random jitter / collaborator calls become explicit oracle parameters.
-/

namespace Stockpile

/-! ## `src/utils/retry.py` -/

/-- The exception taxonomy visible to the retry decorators
(`src/utils/retry.py` plus the builtin exceptions used in the
`exceptions=` tuples). -/
inductive PyError where
  | apiRateLimit (msg : String)
  | network (msg : String)
  | temporaryService (msg : String)
  | connection (msg : String)
  | osError (msg : String)
  | permission (msg : String)
  | valueError (msg : String)
  | notFound (msg : String)
  | other (msg : String)
deriving DecidableEq

/-- The capped exponential component `min(base_delay * (2 ** attempt), max_delay)`
computed by `exponential_backoff` (`retry.py` line 14). -/
def backoffComponent (attempt : Nat) (base_delay max_delay : ℚ) : ℚ :=
  min (base_delay * 2 ^ attempt) max_delay

/-- Embedding of `exponential_backoff` (`retry.py` lines 12-17).
The random jitter `random.uniform(0, delay * 0.1)` is passed in explicitly as
`jitter`; callers constrain it to the interval the source draws from. -/
def exponential_backoff (attempt : Nat) (base_delay max_delay jitter : ℚ) : ℚ :=
  backoffComponent attempt base_delay max_delay + jitter

/-- The attempt loop of the `wrapper` inside `retry_with_backoff`
(`retry.py` lines 29-50), unrolled over the remaining attempts.
`op attempt` is the wrapped function call at the given attempt index,
`retryable e` is membership of `e` in the `exceptions` tuple of the decorator,
and `delay attempt` is the value slept before the next attempt.
Returns the final result together with the list of delays slept.
When `remaining = 0` the current attempt is the last (`attempt == max_retries`)
and any exception is re-raised unchanged. -/
def retryRun (op : Nat → Except PyError α) (retryable : PyError → Bool)
    (delay : Nat → ℚ) : Nat → Nat → Except PyError α × List ℚ
  | attempt, 0 => (op attempt, [])
  | attempt, remaining + 1 =>
    match op attempt with
    | .ok v => (.ok v, [])
    | .error e =>
      if retryable e then
        let r := retryRun op retryable delay (attempt + 1) remaining
        (r.1, delay attempt :: r.2)
      else
        (.error e, [])

/-- Embedding of `retry_with_backoff` applied to an operation: attempts
run from `0` to `max_retries` inclusive (`for attempt in range(max_retries + 1)`). -/
def retry_with_backoff (max_retries : Nat) (retryable : PyError → Bool)
    (delay : Nat → ℚ) (op : Nat → Except PyError α) : Except PyError α × List ℚ :=
  retryRun op retryable delay 0 max_retries

/-- Parameter set of a retry decorator. -/
structure RetryPolicy where
  maxRetries : Nat
  baseDelay : ℚ
  maxDelay : ℚ
  retryable : PyError → Bool

/-- Policy of `retry_api_call` (`retry.py` lines 77-84) with its default parameters:
`max_retries=5, base_delay=2.0, max_delay=120.0`,
`exceptions=(APIRateLimitError, NetworkError, TemporaryServiceError)`. -/
def retry_api_call : RetryPolicy where
  maxRetries := 5
  baseDelay := 2
  maxDelay := 120
  retryable := fun e =>
    match e with
    | .apiRateLimit _ => true
    | .network _ => true
    | .temporaryService _ => true
    | _ => false

/-- Policy of `retry_file_operation` (`retry.py` lines 87-94) with its default parameters:
`max_retries=3, base_delay=1.0, max_delay=10.0`,
`exceptions=(OSError, IOError, PermissionError)` (the latter two are
subclasses/aliases of `OSError`). -/
def retry_file_operation : RetryPolicy where
  maxRetries := 3
  baseDelay := 1
  maxDelay := 10
  retryable := fun e =>
    match e with
    | .osError _ => true
    | .permission _ => true
    | _ => false

/-- Policy of `retry_download` (`retry.py` lines 97-104) with its default parameters:
`max_retries=3, base_delay=2.0, max_delay=60.0`,
`exceptions=(NetworkError, TemporaryServiceError, ConnectionError)`. -/
def retry_download : RetryPolicy where
  maxRetries := 3
  baseDelay := 2
  maxDelay := 60
  retryable := fun e =>
    match e with
    | .network _ => true
    | .temporaryService _ => true
    | .connection _ => true
    | _ => false

/-! ## Folder/filename sanitization
(`src/services/file_organizer.py` `_sanitize_folder_name`,
`src/services/video_downloader.py` `sanitize_filename`).
Python strings are embedded as `List Char`. -/

/-- The character class of the regex `[<>:"/\\|?*]` (`file_organizer.py` line 133). -/
def isIllegalChar (c : Char) : Bool :=
  c = '<' || c = '>' || c = ':' || c = '"' || c = '/' || c = '\\' ||
    c = '|' || c = '?' || c = '*'

/-- Whitespace class of Python regexes over ASCII (space, tab, newline,
carriage return, vertical tab, form feed), as matched by the whitespace run
substitution on line 134 of `file_organizer.py`. -/
def isPySpace (c : Char) : Bool :=
  c = ' ' || c = '\t' || c = '\n' || c = '\r' || c = '\x0b' || c = '\x0c'

/-- Characters stripped from both ends on line 135 of `file_organizer.py`:
dot and underscore. -/
def isStripChar (c : Char) : Bool :=
  c = '.' || c = '_'

/-- Step one of sanitization (`file_organizer.py` line 133): every
filesystem-illegal character is replaced by an underscore. -/
def replaceIllegal (l : List Char) : List Char :=
  l.map fun c => if isIllegalChar c then '_' else c

/-- Worker for the whitespace-collapsing substitution: `inRun` records whether
the previous character was part of a whitespace run already replaced by an
underscore. -/
def collapseSpacesAux : Bool → List Char → List Char
  | _, [] => []
  | inRun, c :: rest =>
    if isPySpace c then
      if inRun then collapseSpacesAux true rest
      else '_' :: collapseSpacesAux true rest
    else c :: collapseSpacesAux false rest

/-- Step two of sanitization (`file_organizer.py` line 134): each maximal
whitespace run becomes a single underscore. -/
def collapseSpaces (l : List Char) : List Char :=
  collapseSpacesAux false l

/-- Step three of sanitization (`file_organizer.py` line 135): remove leading
and trailing dot/underscore characters. -/
def stripEnds (l : List Char) : List Char :=
  ((l.dropWhile isStripChar).reverse.dropWhile isStripChar).reverse

/-- The three rewriting steps of `_sanitize_folder_name` before the
emptiness check and truncation (`file_organizer.py` lines 133-135). -/
def sanitizeCore (l : List Char) : List Char :=
  stripEnds (collapseSpaces (replaceIllegal l))

/-- The placeholder `unnamed_phrase` (`file_organizer.py` line 139). -/
def unnamedPhrase : List Char :=
  "unnamed_phrase".data

/-- Embedding of `FileOrganizer._sanitize_folder_name` (`file_organizer.py` lines 121-141):
replace illegal characters, collapse whitespace, strip dot/underscore ends, substitute
the placeholder if empty, then truncate to 50 characters. -/
def sanitizeFolderName (l : List Char) : List Char :=
  let s := sanitizeCore l
  (if s = [] then unnamedPhrase else s).take 50

/-- Embedding of `VideoDownloader.sanitize_filename` (`video_downloader.py` lines 316-322):
same rewriting steps, placeholder `"unnamed"`, truncation only on the
non-empty branch. -/
def sanitize_filename (l : List Char) : List Char :=
  let s := sanitizeCore l
  if s = [] then "unnamed".data else s.take 50

/-- Sanitization lifted to `String`, as used by
`BRollProcessor._execute_pipeline` line 238 to derive phrase folders. -/
def sanitizeStr (s : String) : String :=
  String.mk (sanitizeFolderName s.data)

/-! ## `src/services/file_monitor.py`: `VideoFileHandler` -/

/-- The mutable state of a `VideoFileHandler`: its `processed_files` set
(`file_monitor.py` line 39), embedded as a list of paths. -/
structure HandlerState where
  processedFiles : List String

/-- A file-system creation event as seen by `VideoFileHandler.on_created`:
`isDirectory` is `event.is_directory`, `srcPath` the event path, `isSupported`
the result of `_is_supported_file`, and `existsAfterWait` the result of the
`file_path.exists()` re-check after the settling sleep. -/
structure FileEvent where
  isDirectory : Bool
  srcPath : String
  isSupported : Bool
  existsAfterWait : Bool

/-- Embedding of `VideoFileHandler.on_created` (`file_monitor.py` lines 41-53).  Returns the
updated handler state and whether the detection callback
(`BRollProcessor._handle_new_file`, which schedules `process_video` on the
running event loop) was invoked for this event. -/
def on_created (s : HandlerState) (e : FileEvent) : HandlerState × Bool :=
  if e.isDirectory then (s, false)
  else if e.isSupported && !(s.processedFiles.contains e.srcPath) then
    if e.existsAfterWait then
      (⟨e.srcPath :: s.processedFiles⟩, true)
    else (s, false)
  else (s, false)

/-- Fold a sequence of creation events through the handler, collecting the
paths for which the callback fired; each fired callback corresponds to one
pipeline run scheduled by `_handle_new_file` (assuming the event loop runs). -/
def runEvents (s : HandlerState) : List FileEvent → HandlerState × List String
  | [] => (s, [])
  | e :: rest =>
    let step := on_created s e
    let tail := runEvents step.1 rest
    (tail.1, if step.2 then e.srcPath :: tail.2 else tail.2)

/-! ## `src/models/job.py` and `BRollProcessor.process_video` -/

/-- Embedding of `JobStatus` (`models/job.py` lines 10-20). -/
inductive JobStatus where
  | queued
  | transcribing
  | extractingPhrases
  | searchingYoutube
  | downloading
  | organizing
  | uploading
  | completed
  | failed
deriving DecidableEq

/-- The fields of `ProcessingJob` relevant to admission control. -/
structure Job where
  jobId : String
  filePath : String
  source : String
  status : JobStatus
  errorMessage : Option String
deriving DecidableEq

/-- The processor state touched by `process_video`: `self.job_queue` and
`self.processing_jobs` (the dict is embedded as an association list with
unique keys maintained by `dictInsert`/`dictPop`). -/
structure ProcState where
  jobQueue : List Job
  processingJobs : List (String × Job)

/-- Dict assignment into `processing_jobs` (`broll_processor.py` line 169). -/
def dictInsert (k : String) (v : Job) (d : List (String × Job)) : List (String × Job) :=
  (k, v) :: d.filter fun kv => kv.1 ≠ k

/-- Dict removal from `processing_jobs` (`broll_processor.py` line 190). -/
def dictPop (k : String) (d : List (String × Job)) : List (String × Job) :=
  d.filter fun kv => kv.1 ≠ k

/-- Admission-set operations performed on `processing_jobs`, in order. -/
inductive AdmOp where
  | insert (id : String)
  | release (id : String)
deriving DecidableEq

/-- Embedding of `BRollProcessor.process_video` (`broll_processor.py` lines 159-192).
The pipeline body `_execute_pipeline` is abstracted by its outcome
`pipeline : Except String Unit` (`.error e` = the awaited call raised `e`).
Returns the value returned/raised by the method, the new processor state, the
job record as last saved (with its terminal status), and the trace of
admission-set operations on `processing_jobs`. -/
def process_video (s : ProcState) (filePath : String) (pipeline : Except String Unit) :
    Except String (Option String) × ProcState × Option Job × List AdmOp :=
  match s.jobQueue.find? (fun j => j.filePath == filePath) with
  | none => (.ok none, s, none, [])
  | some job =>
    let q := s.jobQueue.erase job
    let inProgress := dictInsert job.jobId job s.processingJobs
    match pipeline with
    | .ok _ =>
      (.ok (some job.jobId),
        ⟨q, dictPop job.jobId inProgress⟩,
        some { job with status := .completed },
        [.insert job.jobId, .release job.jobId])
    | .error e =>
      (.error e,
        ⟨q, dictPop job.jobId inProgress⟩,
        some { job with status := .failed, errorMessage := some e },
        [.insert job.jobId, .release job.jobId])

/-! ## `BRollProcessor._execute_pipeline` and the download loop -/

/-- A search hit (`models/video.py` `VideoResult`), reduced to what the
pipeline threads through. -/
structure VideoResult where
  videoId : String
  url : String
deriving DecidableEq

/-- An evaluated candidate (`models/video.py` `ScoredVideo`). -/
structure ScoredVideo where
  videoId : String
  score : Nat
deriving DecidableEq

/-- Outcome of `VideoDownloader._download_single_video` for one candidate:
a downloaded file path, a `None` return (extraction/filter/not-found cases),
or a raised exception. -/
inductive DownloadOutcome where
  | ok (path : String)
  | failedNone
  | raised (msg : String)
deriving DecidableEq

/-- The phrase-folder level of the project directory on disk: folder name
mapped to the files it contains, in creation order. -/
abbrev FS := List (String × List String)

/-- Folder creation with existing folders kept (Python `mkdir` with
`exist_ok`): create the folder if absent,
keep its contents if present. -/
def mkdirp (fs : FS) (name : String) : FS :=
  if (fs.map Prod.fst).contains name then fs else fs ++ [(name, [])]

/-- A downloaded file landing inside `folder`. -/
def addFile (fs : FS) (folder file : String) : FS :=
  fs.map fun kv => if kv.1 = folder then (kv.1, kv.2 ++ [file]) else kv

/-- The per-candidate loop of `VideoDownloader.download_videos_to_folder`
(`video_downloader.py` lines 131-154): each candidate is attempted inside its
own try/except; a raised error is logged and skipped (`continue`), a `None`
return is logged, a success is collected.  Returns (downloaded paths, file
system, attempted candidate ids). -/
def downloadLoop (dl : ScoredVideo → DownloadOutcome) (folder : String) :
    List ScoredVideo → FS → List String × FS × List String
  | [], fs => ([], fs, [])
  | v :: rest, fs =>
    match dl v with
    | .ok p =>
      let r := downloadLoop dl folder rest (addFile fs folder p)
      (p :: r.1, r.2.1, v.videoId :: r.2.2)
    | .failedNone =>
      let r := downloadLoop dl folder rest fs
      (r.1, r.2.1, v.videoId :: r.2.2)
    | .raised _ =>
      let r := downloadLoop dl folder rest fs
      (r.1, r.2.1, v.videoId :: r.2.2)

/-- Embedding of `VideoDownloader.download_videos_to_folder` (`video_downloader.py`
lines 100-159), for the configuration without Drive mirroring
(`drive_service=None`): empty candidate list returns immediately without
touching the file system; otherwise the target folder is created
(`exist_ok=True`) and each candidate is attempted in order. -/
def download_videos_to_folder (dl : ScoredVideo → DownloadOutcome)
    (videos : List ScoredVideo) (folder : String) (fs : FS) :
    List String × FS × List String :=
  if videos.isEmpty then ([], fs, [])
  else downloadLoop dl folder videos (mkdirp fs folder)

/-- The external collaborators reached by one pipeline run, as oracles, plus
the outcome of the transcription stage.  Models the configuration without
Google Drive (`drive_service = None`), under which step 5 of
`_execute_pipeline` is skipped. -/
structure PipelineEnv where
  transcribeResult : Except String String
  aiExtract : String → List String
  search : String → List VideoResult
  evaluate : String → List VideoResult → List ScoredVideo
  maxVideosPerPhrase : Nat
  download : ScoredVideo → DownloadOutcome

/-- Python truthiness of `not transcript or not transcript.strip()`:
the string is empty or consists of whitespace only. -/
def isBlankStr (s : String) : Bool :=
  s.data.all isPySpace

/-- Embedding of `BRollProcessor.extract_search_phrases` (`broll_processor.py` lines
286-303): a blank transcript short-circuits to `[]` without calling the AI
collaborator.  The second component counts AI-collaborator invocations. -/
def extract_search_phrases (aiExtract : String → List String) (transcript : String) :
    List String × Nat :=
  if isBlankStr transcript then ([], 0) else (aiExtract transcript, 1)

/-- Embedding of `BRollProcessor.search_youtube_videos` (`broll_processor.py` lines
305-322): a blank phrase short-circuits to no results. -/
def search_youtube_videos (env : PipelineEnv) (phrase : String) : List VideoResult :=
  if isBlankStr phrase then [] else env.search phrase

/-- Embedding of `BRollProcessor.evaluate_videos` (`broll_processor.py` lines 324-346):
no candidates short-circuits; otherwise the AI ranking is truncated to
`max_videos_per_phrase`. -/
def evaluate_videos (env : PipelineEnv) (phrase : String) (videos : List VideoResult) :
    List ScoredVideo :=
  if videos.isEmpty then [] else (env.evaluate phrase videos).take env.maxVideosPerPhrase

/-- Modelled from the spec: `FileOrganizer.create_project_structure` is called
by `BRollProcessor._create_project_structure` (`broll_processor.py` line 397)
but is absent from the source tree.  Per spec §4.3 Layout / §3 Project
Directory, it creates the local project root and, eagerly, one sanitized
subfolder per phrase.  The returned `FS` is the phrase-folder level of the
fresh project root. -/
def create_project_structure (phrases : List String) (fs : FS) : FS :=
  phrases.foldl (fun acc p => mkdirp acc (sanitizeStr p)) fs

/-- Embedding of `FileOrganizer._cleanup_empty_directories` (`file_organizer.py` lines
219-231) applied to a directory level: remove the (immediate) subdirectories
that are empty.  In the source it is invoked only from
`FileOrganizer.organize_files`, on the base output directory — never from
`_execute_pipeline`. -/
def cleanup_empty_directories (dirs : FS) : FS :=
  dirs.filter fun kv => !kv.2.isEmpty

/-- Accumulator of the per-phrase loop of `_execute_pipeline`
(`broll_processor.py` lines 225-249). -/
structure PhraseLoopState where
  fs : FS
  phraseDownloads : List (String × List String)
  attempted : List String

/-- One iteration of the per-phrase loop (`broll_processor.py` lines
226-249): search, evaluate, then download into the sanitized phrase folder. -/
def phraseStep (env : PipelineEnv) (st : PhraseLoopState) (phrase : String) :
    PhraseLoopState :=
  let results := search_youtube_videos env phrase
  let scored := evaluate_videos env phrase results
  let d := download_videos_to_folder env.download scored (sanitizeStr phrase) st.fs
  { fs := d.2.1
    phraseDownloads := st.phraseDownloads ++ [(phrase, d.1)]
    attempted := st.attempted ++ d.2.2 }

/-- Observable outcome of one pipeline run. -/
structure RunResult where
  status : JobStatus
  transcript : Option String
  searchPhrases : List String
  phraseDownloads : List (String × List String)
  fs : FS
  aiExtractCalls : Nat
  attempted : List String
  notified : Bool

/-- One full run: `_execute_pipeline` (`broll_processor.py` lines 194-265)
together with the terminal-status handling of `process_video` (lines 174-186):
a raised transcription error fails the run; otherwise phrases are extracted,
the project layout is created, every phrase is searched/evaluated/downloaded,
and the run completes and notifies.  `fs` is the phrase-folder level of the
project directory at the end of the run; no cleanup pass runs after the
per-phrase loop. -/
def run_pipeline (env : PipelineEnv) : RunResult :=
  match env.transcribeResult with
  | .error _ =>
    { status := .failed, transcript := none, searchPhrases := []
      phraseDownloads := [], fs := [], aiExtractCalls := 0
      attempted := [], notified := false }
  | .ok transcript =>
    let ex := extract_search_phrases env.aiExtract transcript
    let phrases := ex.1
    let layout := create_project_structure phrases []
    let final := phrases.foldl (phraseStep env) ⟨layout, [], []⟩
    { status := .completed, transcript := some transcript
      searchPhrases := phrases, phraseDownloads := final.phraseDownloads
      fs := final.fs, aiExtractCalls := ex.2
      attempted := final.attempted, notified := true }

/-! ## `FileOrganizer._move_file_to_folder` (`file_organizer.py` lines 84-119) -/

/-- Decimal digit to character, for the f-string `f"{stem}_{counter}{suffix}"`. -/
def digitChar : Nat → Char
  | 0 => '0'
  | 1 => '1'
  | 2 => '2'
  | 3 => '3'
  | 4 => '4'
  | 5 => '5'
  | 6 => '6'
  | 7 => '7'
  | 8 => '8'
  | _ => '9'

/-- Inverse of `digitChar` on decimal digits. -/
def digitVal : Char → Nat
  | '0' => 0
  | '1' => 1
  | '2' => 2
  | '3' => 3
  | '4' => 4
  | '5' => 5
  | '6' => 6
  | '7' => 7
  | '8' => 8
  | _ => 9

/-- Decimal representation of a natural number, most significant digit first
(the digits of `str(counter)` in the f-string). -/
def natDigits (n : Nat) : List Char :=
  if _h : n < 10 then [digitChar n]
  else natDigits (n / 10) ++ [digitChar (n % 10)]
decreasing_by omega

/-- Evaluate a digit string back to a number. -/
def digitsToNat (l : List Char) : Nat :=
  l.foldl (fun acc c => acc * 10 + digitVal c) 0

/-- The `k`-th destination name tried by `_move_file_to_folder`:
`source.name` (= `stem ++ suffix`) for `k = 0`, then
`f"{stem}_{k}{suffix}"` for `k ≥ 1`. -/
def candidateName (stem suffix : List Char) (k : Nat) : List Char :=
  if k = 0 then stem ++ suffix else stem ++ '_' :: (natDigits k ++ suffix)

/-- The `while destination.exists()` loop of `_move_file_to_folder`
(lines 103-109), with explicit fuel: try candidate `k`, then `k + 1`, ...
until a name not present in `occupied` (the directory listing of the folder)
is found. -/
def findFreeName (occupied : List (List Char)) (stem suffix : List Char) :
    Nat → Nat → Option (List Char)
  | _, 0 => none
  | k, fuel + 1 =>
    let cand := candidateName stem suffix k
    if occupied.contains cand then findFreeName occupied stem suffix (k + 1) fuel
    else some cand

/-- Embedding of `FileOrganizer._move_file_to_folder` (`file_organizer.py` lines 84-119):
`none` when the source file does not exist (no move happens) or when
`shutil.move` itself raises (`moveRaises`); otherwise the file is moved to the
first conflict-free destination name and that path is returned.  The fuel
`occupied.length + 2` exceeds the number of names the loop can possibly
collide with. -/
def move_file_to_folder (srcExists moveRaises : Bool) (stem suffix : List Char)
    (occupied : List (List Char)) : Option (List Char) :=
  if !srcExists then none
  else
    match findFreeName occupied stem suffix 0 (occupied.length + 2) with
    | none => none
    | some dest => if moveRaises then none else some dest

/-! ## Concrete scenario data -/

/-- Delays slept by the retry loop for attempts `first, first+1, ...`,
`count` many. -/
def delaysFrom (delay : Nat → ℚ) : Nat → Nat → List ℚ
  | _, 0 => []
  | first, count + 1 => delay first :: delaysFrom delay (first + 1) count

/-- Scenario A environment: transcription returns the empty transcript; the
AI collaborator would return a phrase if it were (wrongly) consulted. -/
def envBlank : PipelineEnv where
  transcribeResult := .ok ""
  aiExtract := fun _ => ["should not be called"]
  search := fun _ => []
  evaluate := fun _ _ => []
  maxVideosPerPhrase := 3
  download := fun _ => .failedNone

/-- Environment with one phrase whose only candidate fails to download:
used against the cleanup claim. -/
def envC5 : PipelineEnv where
  transcribeResult := .ok "waves crashing on the shore"
  aiExtract := fun _ => ["ocean waves"]
  search := fun _ => [⟨"v1", "http"⟩]
  evaluate := fun _ _ => [⟨"v1", 9⟩]
  maxVideosPerPhrase := 3
  download := fun _ => .raised "HTTP Error 404: Not Found"

/-- Scenario C environment: one phrase, two candidates; downloading the first
raises a fatal not-found error, the second succeeds. -/
def envC8 : PipelineEnv where
  transcribeResult := .ok "city at night"
  aiExtract := fun _ => ["city"]
  search := fun _ => [⟨"c1", "u1"⟩, ⟨"c2", "u2"⟩]
  evaluate := fun _ _ => [⟨"c1", 9⟩, ⟨"c2", 7⟩]
  maxVideosPerPhrase := 3
  download := fun v => if v.videoId = "c1" then .raised "not found" else .ok "score07_city.mp4"

/-- A 51-character name that sanitization truncates into a name with a
trailing underscore: one letter, 49 underscores, one letter. -/
def badFolderName : List Char :=
  'a' :: (List.replicate 49 '_' ++ ['a'])

/-! ## Theorems: retry and backoff (C4, C7, C9) -/

/-- Helper: when every attempt up to the budget raises a retryable error, the
retry loop sleeps once per non-final attempt and re-raises the error of the
final attempt unchanged. -/
theorem retryRun_all_fail {α : Type} (op : Nat → Except PyError α)
    (retryable : PyError → Bool) (delay : Nat → ℚ) (es : Nat → PyError) :
    ∀ (remaining first : Nat),
      (∀ i, i ≤ first + remaining → op i = .error (es i)) →
      (∀ i, i < first + remaining → retryable (es i) = true) →
      retryRun op retryable delay first remaining =
        (.error (es (first + remaining)), delaysFrom delay first remaining) := by
  intro remaining
  induction remaining with
  | zero =>
    intro first hop _
    simp [retryRun, delaysFrom, hop first (by omega)]
  | succ r ih =>
    intro first hop hr
    have h0 : op first = .error (es first) := hop first (by omega)
    have hr0 : retryable (es first) = true := hr first (by omega)
    have hrec := ih (first + 1) (fun i hi => hop i (by omega)) (fun i hi => hr i (by omega))
    have harith : first + 1 + r = first + (r + 1) := by omega
    rw [harith] at hrec
    simp [retryRun, delaysFrom, h0, hr0, hrec]

/-- C4: a non-retryable failure propagates immediately with no retry and no
delay; a run of retryable failures is retried with one backoff sleep per
non-final attempt and, after the final attempt, the failure propagates
unchanged; and an operation that raises a transient-network failure twice and
then succeeds, under `max_retries = 3`, ultimately returns its success
value. -/
theorem retry_with_backoff_spec {α : Type} (max_retries : Nat)
    (retryable : PyError → Bool) (delay : Nat → ℚ) (op : Nat → Except PyError α) :
    (∀ e, retryable e = false → op 0 = .error e →
      retry_with_backoff max_retries retryable delay op = (.error e, [])) ∧
    (∀ es : Nat → PyError,
      (∀ i, i ≤ max_retries → op i = .error (es i)) →
      (∀ i, i < max_retries → retryable (es i) = true) →
      retry_with_backoff max_retries retryable delay op =
        (.error (es max_retries), delaysFrom delay 0 max_retries)) ∧
    (∀ (op₂ : Nat → Except PyError α) (v : α),
      op₂ 0 = .error (.network "timeout") → op₂ 1 = .error (.network "timeout") →
      op₂ 2 = .ok v → retryable (.network "timeout") = true →
      (retry_with_backoff 3 retryable delay op₂).1 = .ok v) := by
  refine ⟨?_, ?_, ?_⟩
  · intro e hre hop
    cases max_retries with
    | zero => simp [retry_with_backoff, retryRun, hop]
    | succ n => simp [retry_with_backoff, retryRun, hop, hre]
  · intro es hop hr
    have h := retryRun_all_fail op retryable delay es max_retries 0
      (fun i hi => hop i (by omega)) (fun i hi => hr i (by omega))
    simpa [retry_with_backoff] using h
  · intro op₂ v h0 h1 h2 hrt
    simp [retry_with_backoff, retryRun, h0, h1, h2, hrt]

/-- Witness for C4: a concrete operation failing twice with a network error
then succeeding, retried with budget 3, returns its success value. -/
theorem retry_with_backoff_spec_witness :
    (retry_with_backoff 3
        (fun e => match e with | .network _ => true | _ => false)
        (fun _ => 0)
        (fun i => if i < 2 then .error (.network "timeout") else .ok (7 : Nat))).1
      = .ok 7 :=
  (retry_with_backoff_spec 3
      (fun e => match e with | .network _ => true | _ => false)
      (fun _ => 0)
      (fun i => if i < 2 then .error (.network "timeout") else .ok 7)).2.2
    (fun i => if i < 2 then .error (.network "timeout") else .ok 7) 7
    rfl rfl rfl rfl

/-- C7: the realized backoff delay (capped exponential component plus jitter
bounded by a tenth of the component) never exceeds `max_delay * 1.1`, and the
capped component is monotonically non-decreasing in the attempt number. -/
theorem exponential_backoff_bounds (attempt later : Nat) (b M j : ℚ)
    (hb : 0 < b) (hbM : b ≤ M) (hj0 : 0 ≤ j)
    (hj : j ≤ backoffComponent attempt b M * (1 / 10)) (hle : attempt ≤ later) :
    exponential_backoff attempt b M j ≤ M * (11 / 10) ∧
    backoffComponent attempt b M ≤ backoffComponent later b M := by
  have hcM : backoffComponent attempt b M ≤ M := min_le_right _ _
  have hc0 : (0 : ℚ) ≤ backoffComponent attempt b M :=
    le_min (by positivity) (le_trans hb.le hbM)
  constructor
  · have h1 : exponential_backoff attempt b M j ≤
        backoffComponent attempt b M * (11 / 10) := by
      unfold exponential_backoff
      linarith
    have h2 : backoffComponent attempt b M * (11 / 10) ≤ M * (11 / 10) :=
      mul_le_mul_of_nonneg_right hcM (by norm_num)
    linarith
  · unfold backoffComponent
    refine min_le_min ?_ le_rfl
    have hpow : (2 : ℚ) ^ attempt ≤ 2 ^ later := pow_le_pow_right₀ (by norm_num) hle
    exact mul_le_mul_of_nonneg_left hpow hb.le

/-- Witness for C7 at attempt 1 versus 2, base 1, cap 60, jitter 1/10. -/
theorem exponential_backoff_bounds_witness :
    exponential_backoff 1 1 60 (1 / 10) ≤ 60 * (11 / 10) ∧
    backoffComponent 1 1 60 ≤ backoffComponent 2 1 60 :=
  exponential_backoff_bounds 1 2 1 60 (1 / 10) (by norm_num) (by norm_num)
    (by norm_num) (by norm_num [backoffComponent]) (by norm_num)

/-- C9 counterexample: the download attempt budget equals the filesystem
attempt budget, so it is not strictly intermediate between the filesystem and
API budgets. -/
theorem retry_budget_not_strictly_intermediate :
    retry_download.maxRetries = retry_file_operation.maxRetries ∧
    ¬(retry_file_operation.maxRetries < retry_download.maxRetries ∧
      retry_download.maxRetries < retry_api_call.maxRetries) :=
  ⟨rfl, by decide⟩

/-- C9 amended: the API policy uses a strictly larger attempt budget and
strictly larger maximum delay than the filesystem policy; the download policy
has an attempt budget between the two only inclusively (it equals the
filesystem budget), while its maximum delay is strictly intermediate. -/
theorem retry_policy_ordering :
    retry_file_operation.maxRetries < retry_api_call.maxRetries ∧
    retry_file_operation.maxDelay < retry_api_call.maxDelay ∧
    retry_file_operation.maxRetries ≤ retry_download.maxRetries ∧
    retry_download.maxRetries ≤ retry_api_call.maxRetries ∧
    retry_file_operation.maxDelay < retry_download.maxDelay ∧
    retry_download.maxDelay < retry_api_call.maxDelay := by
  refine ⟨by decide, ?_, by decide, by decide, ?_, ?_⟩ <;>
    norm_num [retry_file_operation, retry_api_call, retry_download]

/-! ## Theorems: admission control (C1, C3) -/

/-- Helper: the `processed_files` set only grows. -/
theorem on_created_processed_mono (s : HandlerState) (e : FileEvent) (p : String)
    (h : p ∈ s.processedFiles) : p ∈ (on_created s e).1.processedFiles := by
  unfold on_created
  split
  · exact h
  · split
    · split
      · exact List.mem_cons_of_mem _ h
      · exact h
    · exact h

/-- Helper: an event for a path already in `processed_files` never fires the
detection callback. -/
theorem on_created_drop (s : HandlerState) (e : FileEvent)
    (h : e.srcPath ∈ s.processedFiles) : (on_created s e).2 = false := by
  have hc : s.processedFiles.contains e.srcPath = true := by
    simpa using h
  unfold on_created
  rw [hc]
  simp

/-- Helper: when the callback fires, the path has entered `processed_files`. -/
theorem on_created_fired_mem (s : HandlerState) (e : FileEvent)
    (h : (on_created s e).2 = true) : e.srcPath ∈ (on_created s e).1.processedFiles := by
  unfold on_created at h ⊢
  split
  · next h1 => rw [if_pos h1] at h; simp at h
  · next h1 =>
    rw [if_neg h1] at h
    split
    · next h2 =>
      rw [if_pos h2] at h
      split
      · next h3 => simp
      · next h3 => rw [if_neg h3] at h; simp at h
    · next h2 => rw [if_neg h2] at h; simp at h

/-- Helper: no run is ever scheduled for a path already in `processed_files`. -/
theorem runEvents_count_zero (p : String) :
    ∀ (evts : List FileEvent) (s : HandlerState), p ∈ s.processedFiles →
      ((runEvents s evts).2.count p) = 0 := by
  intro evts
  induction evts with
  | nil => intro s _; simp [runEvents]
  | cons e rest ih =>
    intro s h
    by_cases hp : e.srcPath = p
    · have hf : (on_created s e).2 = false := on_created_drop s e (hp ▸ h)
      simpa [runEvents, hf] using ih _ (on_created_processed_mono s e p h)
    · cases hf : (on_created s e).2 with
      | false => simpa [runEvents, hf] using ih _ (on_created_processed_mono s e p h)
      | true =>
        have := ih _ (on_created_processed_mono s e p h)
        simpa [runEvents, hf, List.count_cons, hp] using this

/-- Helper: over any event sequence, at most one run is scheduled per path. -/
theorem runEvents_count_le_one (p : String) :
    ∀ (evts : List FileEvent) (s : HandlerState),
      ((runEvents s evts).2.count p) ≤ 1 := by
  intro evts
  induction evts with
  | nil => intro s; simp [runEvents]
  | cons e rest ih =>
    intro s
    cases hf : (on_created s e).2 with
    | false => simpa [runEvents, hf] using ih (on_created s e).1
    | true =>
      by_cases hp : e.srcPath = p
      · have hmem : p ∈ (on_created s e).1.processedFiles :=
          hp ▸ on_created_fired_mem s e hf
        have h0 := runEvents_count_zero p rest _ hmem
        simp [runEvents, hf, List.count_cons, hp, h0]
      · simpa [runEvents, hf, List.count_cons, hp] using ih (on_created s e).1

/-- C1: a second detection event for an identifier whose run is already
admitted (hence in `processed_files`) is dropped by `on_created`, no run is
ever scheduled for it again, and over any event sequence at most one pipeline
run is scheduled per identifier. -/
theorem admission_guard_dedup (s : HandlerState) (e : FileEvent) (p : String)
    (hmem : p ∈ s.processedFiles) (hp : e.srcPath = p) :
    (on_created s e).2 = false ∧
    (∀ evts : List FileEvent, ((runEvents s evts).2.count p) = 0) ∧
    (∀ (s₀ : HandlerState) (evts : List FileEvent),
      ((runEvents s₀ evts).2.count p) ≤ 1) :=
  ⟨on_created_drop s e (hp ▸ hmem),
   fun evts => runEvents_count_zero p evts s hmem,
   fun s₀ evts => runEvents_count_le_one p evts s₀⟩

/-- Witness for C1 on a concrete admitted path and duplicate events. -/
theorem admission_guard_dedup_witness :
    (on_created ⟨["in/video.mp4"]⟩ ⟨false, "in/video.mp4", true, true⟩).2 = false ∧
    ((runEvents ⟨["in/video.mp4"]⟩
        [⟨false, "in/video.mp4", true, true⟩]).2.count "in/video.mp4") = 0 ∧
    ((runEvents ⟨[]⟩ [⟨false, "in/video.mp4", true, true⟩,
        ⟨false, "in/video.mp4", true, true⟩]).2.count "in/video.mp4") ≤ 1 := by
  obtain ⟨h1, h2, h3⟩ := admission_guard_dedup ⟨["in/video.mp4"]⟩
    ⟨false, "in/video.mp4", true, true⟩ "in/video.mp4" (by simp) rfl
  exact ⟨h1, h2 _, h3 ⟨[]⟩ _⟩

/-- C3: for an admitted run (its job is found in the queue), `process_video`
inserts the job id into `processing_jobs` at run start and releases it exactly
once, on the success path and on the exception path alike; afterwards the id
is no longer a member, the success path returns the job id with terminal
status COMPLETED, and the failure path re-raises the pipeline error with
terminal status FAILED. -/
theorem process_video_release (s : ProcState) (fp : String)
    (pipeline : Except String Unit) (job : Job)
    (hfind : s.jobQueue.find? (fun j => j.filePath == fp) = some job) :
    (process_video s fp pipeline).2.2.2 = [.insert job.jobId, .release job.jobId] ∧
    (∀ kv ∈ (process_video s fp pipeline).2.1.processingJobs, kv.1 ≠ job.jobId) ∧
    (pipeline = .ok () →
      (process_video s fp pipeline).1 = .ok (some job.jobId) ∧
      ((process_video s fp pipeline).2.2.1).map Job.status = some .completed) ∧
    (∀ err, pipeline = .error err →
      (process_video s fp pipeline).1 = .error err ∧
      ((process_video s fp pipeline).2.2.1).map Job.status = some .failed) := by
  cases pipeline with
  | ok u =>
    cases u
    refine ⟨by simp [process_video, hfind], ?_, fun _ => by simp [process_video, hfind],
      fun err h => by simp at h⟩
    intro kv hkv
    simp only [process_video, hfind] at hkv
    simp only [dictPop, List.mem_filter, decide_eq_true_eq] at hkv
    exact hkv.2
  | error err =>
    refine ⟨by simp [process_video, hfind], ?_, fun h => by simp at h, ?_⟩
    · intro kv hkv
      simp only [process_video, hfind] at hkv
      simp only [dictPop, List.mem_filter, decide_eq_true_eq] at hkv
      exact hkv.2
    · intro err' h
      injection h with h
      subst h
      exact ⟨by simp [process_video, hfind], by simp [process_video, hfind]⟩

/-- Witness for C3 on a concrete one-job queue, success path. -/
theorem process_video_release_witness :
    (process_video ⟨[⟨"j1", "a.mp4", "local", .queued, none⟩], []⟩ "a.mp4"
        (.ok ())).2.2.2 = [.insert "j1", .release "j1"] ∧
    (process_video ⟨[⟨"j1", "a.mp4", "local", .queued, none⟩], []⟩ "a.mp4"
        (.ok ())).1 = .ok (some "j1") := by
  obtain ⟨h1, _h2, h3, _h4⟩ := process_video_release
    ⟨[⟨"j1", "a.mp4", "local", .queued, none⟩], []⟩ "a.mp4" (.ok ())
    ⟨"j1", "a.mp4", "local", .queued, none⟩ (by simp [List.find?])
  exact ⟨h1, (h3 rfl).1⟩

/-! ## Theorems: pipeline behavior (C2, C8, C5) -/

/-- C2: a run whose transcription stage returns a blank transcript
short-circuits phrase extraction to the empty list without calling the AI
collaborator, and completes with zero downloads, zero phrase folders, and the
completion notification sent. -/
theorem empty_transcript_completes (env : PipelineEnv) (t : String)
    (ht : env.transcribeResult = .ok t) (hb : isBlankStr t = true) :
    (run_pipeline env).status = .completed ∧
    (run_pipeline env).searchPhrases = [] ∧
    (run_pipeline env).aiExtractCalls = 0 ∧
    (run_pipeline env).phraseDownloads = [] ∧
    (run_pipeline env).fs = [] ∧
    (run_pipeline env).notified = true := by
  simp [run_pipeline, ht, extract_search_phrases, hb, create_project_structure]

/-- Witness for C2: the concrete environment with an empty transcript. -/
theorem empty_transcript_completes_witness :
    (run_pipeline envBlank).status = .completed ∧
    (run_pipeline envBlank).searchPhrases = [] ∧
    (run_pipeline envBlank).aiExtractCalls = 0 ∧
    (run_pipeline envBlank).phraseDownloads = [] ∧
    (run_pipeline envBlank).fs = [] ∧
    (run_pipeline envBlank).notified = true :=
  empty_transcript_completes envBlank "" rfl rfl

/-- Helper: the download loop attempts every candidate, whatever the outcome
of the earlier ones. -/
theorem downloadLoop_attempts (dl : ScoredVideo → DownloadOutcome) (folder : String) :
    ∀ (videos : List ScoredVideo) (fs : FS),
      (downloadLoop dl folder videos fs).2.2 = videos.map ScoredVideo.videoId := by
  intro videos
  induction videos with
  | nil => intro fs; simp [downloadLoop]
  | cons v rest ih =>
    intro fs
    cases h : dl v <;> simp [downloadLoop, h, ih]

/-- C8: a raised download error for one candidate is caught and skipped —
every candidate of the phrase is attempted regardless — and in the concrete
scenario (candidate 1 of 2 raises a fatal not-found error, candidate 2
succeeds) the second candidate is attempted, its file is retained in the
phrase folder, and the run reaches COMPLETED. -/
theorem download_failure_isolated :
    (∀ (dl : ScoredVideo → DownloadOutcome) (folder : String)
        (videos : List ScoredVideo) (fs : FS),
      (downloadLoop dl folder videos fs).2.2 = videos.map ScoredVideo.videoId) ∧
    (run_pipeline envC8).status = .completed ∧
    (run_pipeline envC8).attempted = ["c1", "c2"] ∧
    (run_pipeline envC8).phraseDownloads = [("city", ["score07_city.mp4"])] ∧
    (run_pipeline envC8).fs = [("city", ["score07_city.mp4"])] :=
  ⟨downloadLoop_attempts, rfl, rfl, rfl, rfl⟩

/-- C5 counterexample: a completed run with one phrase whose only candidate
fails to download ends with one (empty) persisting phrase folder but zero
phrases having a successfully downloaded file — no cleanup pass runs after
the per-phrase loop of `_execute_pipeline`. -/
theorem cleanup_claim_counterexample :
    (run_pipeline envC5).status = .completed ∧
    (run_pipeline envC5).fs = [("ocean_waves", [])] ∧
    ((run_pipeline envC5).phraseDownloads.filter fun pd => !pd.2.isEmpty) = [] ∧
    (run_pipeline envC5).fs.length ≠
      ((run_pipeline envC5).phraseDownloads.filter fun pd => !pd.2.isEmpty).length :=
  ⟨rfl, rfl, rfl, by decide⟩

/-- Helper: a file landing in a folder does not change the folder listing. -/
theorem addFile_keys (fs : FS) (f file : String) :
    (addFile fs f file).map Prod.fst = fs.map Prod.fst := by
  unfold addFile
  rw [List.map_map]
  refine List.map_congr_left fun kv _ => ?_
  dsimp
  split <;> rfl

/-- Helper: folder creation preserves existing folders. -/
theorem mkdirp_keys_mem (fs : FS) (n x : String) (h : x ∈ fs.map Prod.fst) :
    x ∈ (mkdirp fs n).map Prod.fst := by
  unfold mkdirp
  split
  · exact h
  · simp [h]

/-- Helper: folder creation makes the folder present. -/
theorem mkdirp_self_mem (fs : FS) (n : String) : n ∈ (mkdirp fs n).map Prod.fst := by
  unfold mkdirp
  split
  · next hc => simpa using hc
  · simp

/-- Helper: the download loop never removes a folder. -/
theorem downloadLoop_keys (dl : ScoredVideo → DownloadOutcome) (folder : String) :
    ∀ (videos : List ScoredVideo) (fs : FS) (x : String),
      x ∈ fs.map Prod.fst → x ∈ (downloadLoop dl folder videos fs).2.1.map Prod.fst := by
  intro videos
  induction videos with
  | nil => intro fs x h; simpa [downloadLoop] using h
  | cons v rest ih =>
    intro fs x h
    cases hd : dl v <;> simp only [downloadLoop, hd]
    · exact ih _ x (by rwa [addFile_keys])
    · exact ih _ x h
    · exact ih _ x h

/-- Helper: `download_videos_to_folder` never removes a folder. -/
theorem download_videos_to_folder_keys (dl : ScoredVideo → DownloadOutcome)
    (videos : List ScoredVideo) (folder : String) (fs : FS) (x : String)
    (h : x ∈ fs.map Prod.fst) :
    x ∈ (download_videos_to_folder dl videos folder fs).2.1.map Prod.fst := by
  unfold download_videos_to_folder
  split
  · exact h
  · exact downloadLoop_keys dl folder videos _ x (mkdirp_keys_mem fs folder x h)

/-- Helper: the per-phrase loop never removes a folder. -/
theorem foldl_phraseStep_keys (env : PipelineEnv) :
    ∀ (phrases : List String) (st : PhraseLoopState) (x : String),
      x ∈ st.fs.map Prod.fst →
      x ∈ (phrases.foldl (phraseStep env) st).fs.map Prod.fst := by
  intro phrases
  induction phrases with
  | nil => intro st x h; simpa using h
  | cons p rest ih =>
    intro st x h
    simp only [List.foldl_cons]
    exact ih _ x (download_videos_to_folder_keys _ _ _ _ x h)

/-- Helper: layout preserves existing folders. -/
theorem create_project_structure_mono :
    ∀ (phrases : List String) (fs : FS) (x : String), x ∈ fs.map Prod.fst →
      x ∈ (create_project_structure phrases fs).map Prod.fst := by
  intro phrases
  induction phrases with
  | nil => intro fs x h; simpa [create_project_structure] using h
  | cons p rest ih =>
    intro fs x h
    simp only [create_project_structure, List.foldl_cons]
    exact ih _ x (mkdirp_keys_mem fs _ x h)

/-- Helper: layout creates a folder for every phrase. -/
theorem create_project_structure_mem :
    ∀ (phrases : List String) (fs : FS) (p : String), p ∈ phrases →
      sanitizeStr p ∈ (create_project_structure phrases fs).map Prod.fst := by
  intro phrases
  induction phrases with
  | nil => intro fs p h; cases h
  | cons q rest ih =>
    intro fs p h
    rcases List.mem_cons.mp h with h | h
    · subst h
      simp only [create_project_structure, List.foldl_cons]
      exact create_project_structure_mono rest _ _ (mkdirp_self_mem fs _)
    · simp only [create_project_structure, List.foldl_cons]
      exact ih _ p h

/-- C5 amended: the pipeline performs no cleanup after the per-phrase loop —
every phrase folder created at layout persists to the end of the run, whether
or not any download into it succeeded; empty-directory removal exists only in
`FileOrganizer.organize_files` (never called by `_execute_pipeline`) and only
for the top level of the base output directory. -/
theorem pipeline_keeps_phrase_folders (env : PipelineEnv) (t : String)
    (ht : env.transcribeResult = .ok t) :
    ∀ p ∈ (run_pipeline env).searchPhrases,
      sanitizeStr p ∈ (run_pipeline env).fs.map Prod.fst := by
  intro p hp
  simp only [run_pipeline, ht] at hp ⊢
  exact foldl_phraseStep_keys env _ _ _ (create_project_structure_mem _ _ _ hp)

/-- Witness for the amended C5: the failed-download phrase folder of the
counterexample environment is still present at the end of the run. -/
theorem pipeline_keeps_phrase_folders_witness :
    sanitizeStr "ocean waves" ∈ (run_pipeline envC5).fs.map Prod.fst :=
  pipeline_keeps_phrase_folders envC5 "waves crashing on the shore" rfl
    "ocean waves" (by decide)

/-! ## Theorems: sanitization (C6) -/

/-- Helper: after the illegal-character substitution no illegal character
remains. -/
theorem replaceIllegal_no_illegal (l : List Char) :
    ∀ c ∈ replaceIllegal l, isIllegalChar c = false := by
  intro c hc
  rcases List.mem_map.mp hc with ⟨d, _, rfl⟩
  cases hil : isIllegalChar d
  · simp [hil]
  · simp [hil]
    decide

/-- Helper: the illegal-character substitution fixes clean strings. -/
theorem replaceIllegal_eq_self (l : List Char)
    (h : ∀ c ∈ l, isIllegalChar c = false) : replaceIllegal l = l := by
  unfold replaceIllegal
  have hmap : l.map (fun c => if isIllegalChar c then '_' else c) = l.map id :=
    List.map_congr_left fun c hc => by simp [h c hc]
  simpa using hmap

/-- Helper: after whitespace collapsing no whitespace remains. -/
theorem collapseSpacesAux_no_space :
    ∀ (l : List Char) (b : Bool), ∀ c ∈ collapseSpacesAux b l, isPySpace c = false := by
  intro l
  induction l with
  | nil => intro b c hc; simp [collapseSpacesAux] at hc
  | cons a rest ih =>
    intro b c hc
    cases hsp : isPySpace a
    · simp only [collapseSpacesAux, hsp] at hc
      simp at hc
      rcases hc with rfl | hc
      · exact hsp
      · exact ih false c hc
    · cases b
      · simp only [collapseSpacesAux, hsp] at hc
        simp at hc
        rcases hc with rfl | hc
        · decide
        · exact ih true c hc
      · simp only [collapseSpacesAux, hsp] at hc
        exact ih true c hc

/-- Helper: whitespace collapsing only inserts underscores or keeps input
characters. -/
theorem collapseSpacesAux_subset :
    ∀ (l : List Char) (b : Bool), ∀ c ∈ collapseSpacesAux b l, c = '_' ∨ c ∈ l := by
  intro l
  induction l with
  | nil => intro b c hc; simp [collapseSpacesAux] at hc
  | cons a rest ih =>
    intro b c hc
    cases hsp : isPySpace a
    · simp only [collapseSpacesAux, hsp] at hc
      simp at hc
      rcases hc with rfl | hc
      · right; exact List.mem_cons_self _ _
      · rcases ih false c hc with h | h
        · exact Or.inl h
        · exact Or.inr (List.mem_cons_of_mem _ h)
    · cases b
      · simp only [collapseSpacesAux, hsp] at hc
        simp at hc
        rcases hc with rfl | hc
        · exact Or.inl rfl
        · rcases ih true c hc with h | h
          · exact Or.inl h
          · exact Or.inr (List.mem_cons_of_mem _ h)
      · simp only [collapseSpacesAux, hsp] at hc
        rcases ih true c hc with h | h
        · exact Or.inl h
        · exact Or.inr (List.mem_cons_of_mem _ h)

/-- Helper: whitespace collapsing fixes whitespace-free strings. -/
theorem collapseSpacesAux_eq_self :
    ∀ (l : List Char) (b : Bool), (∀ c ∈ l, isPySpace c = false) →
      collapseSpacesAux b l = l := by
  intro l
  induction l with
  | nil => intro b _; rfl
  | cons a rest ih =>
    intro b h
    have ha : isPySpace a = false := h a (List.mem_cons_self _ _)
    simp only [collapseSpacesAux, ha]
    simp only [Bool.false_eq_true, if_false]
    rw [ih false (fun c hc => h c (List.mem_cons_of_mem _ hc))]

/-- Helper: the head of a `dropWhile` result fails the predicate. -/
theorem dropWhile_head_false (p : Char → Bool) :
    ∀ (l : List Char) (c : Char) (rest : List Char),
      l.dropWhile p = c :: rest → p c = false := by
  intro l
  induction l with
  | nil => intro c rest h; simp [List.dropWhile] at h
  | cons a l ih =>
    intro c rest h
    rw [List.dropWhile_cons] at h
    by_cases hp : p a = true
    · rw [if_pos hp] at h
      exact ih c rest h
    · rw [if_neg hp] at h
      injection h with h1 _
      subst h1
      exact Bool.not_eq_true _ |>.mp hp

/-- Helper: `dropWhile` keeps the last element when its result is nonempty. -/
theorem getLast?_dropWhile (p : Char → Bool) :
    ∀ (l : List Char), l.dropWhile p ≠ [] →
      (l.dropWhile p).getLast? = l.getLast? := by
  intro l
  induction l with
  | nil => intro h; simp [List.dropWhile] at h
  | cons a l ih =>
    intro h
    rw [List.dropWhile_cons]
    by_cases hp : p a = true
    · rw [List.dropWhile_cons, if_pos hp] at h
      rw [if_pos hp, ih h]
      cases l with
      | nil => simp [List.dropWhile] at h
      | cons b l' => rw [List.getLast?_cons_cons]
    · rw [if_neg hp]

/-- Helper: every character surviving the end-stripping was in the input. -/
theorem stripEnds_subset (l : List Char) : ∀ c ∈ stripEnds l, c ∈ l := by
  intro c hc
  unfold stripEnds at hc
  rw [List.mem_reverse] at hc
  have h1 : c ∈ (l.dropWhile isStripChar).reverse :=
    (List.dropWhile_sublist _).subset hc
  rw [List.mem_reverse] at h1
  exact (List.dropWhile_sublist _).subset h1

/-- Helper: the first character of a stripped string is not strippable. -/
theorem stripEnds_head_false (l : List Char) :
    ∀ c, (stripEnds l).head? = some c → isStripChar c = false := by
  intro c hc
  unfold stripEnds at hc
  rw [List.head?_reverse] at hc
  have hne : (l.dropWhile isStripChar).reverse.dropWhile isStripChar ≠ [] := by
    intro h0
    rw [h0] at hc
    simp at hc
  rw [getLast?_dropWhile _ _ hne, List.getLast?_reverse] at hc
  cases hdrop : l.dropWhile isStripChar with
  | nil => rw [hdrop] at hc; simp at hc
  | cons d rest =>
    rw [hdrop] at hc
    simp at hc
    subst hc
    exact dropWhile_head_false _ l d rest hdrop

/-- Helper: the last character of a stripped string is not strippable. -/
theorem stripEnds_last_false (l : List Char) :
    ∀ c, (stripEnds l).getLast? = some c → isStripChar c = false := by
  intro c hc
  unfold stripEnds at hc
  rw [List.getLast?_reverse] at hc
  cases hdrop : (l.dropWhile isStripChar).reverse.dropWhile isStripChar with
  | nil => rw [hdrop] at hc; simp at hc
  | cons d rest =>
    rw [hdrop] at hc
    simp at hc
    subst hc
    exact dropWhile_head_false _ _ d rest hdrop

/-- Helper: stripping fixes a string whose two ends are not strippable. -/
theorem stripEnds_eq_self (l : List Char)
    (hh : ∀ c, l.head? = some c → isStripChar c = false)
    (hl : ∀ c, l.getLast? = some c → isStripChar c = false) :
    stripEnds l = l := by
  have h1 : l.dropWhile isStripChar = l := by
    cases l with
    | nil => rfl
    | cons a l' =>
      rw [List.dropWhile_cons, if_neg]
      rw [hh a rfl]
      simp
  unfold stripEnds
  rw [h1]
  have h2 : l.reverse.dropWhile isStripChar = l.reverse := by
    cases hrev : l.reverse with
    | nil => simp [List.dropWhile]
    | cons a l' =>
      rw [List.dropWhile_cons, if_neg]
      have ha : l.getLast? = some a := by
        rw [← List.head?_reverse, hrev]
        rfl
      rw [hl a ha]
      simp
  rw [h2, List.reverse_reverse]

/-- Helper: characters of a sanitized core are neither illegal nor
whitespace. -/
theorem sanitizeCore_clean (l : List Char) :
    ∀ c ∈ sanitizeCore l, isIllegalChar c = false ∧ isPySpace c = false := by
  intro c hc
  unfold sanitizeCore at hc
  have hmem : c ∈ collapseSpaces (replaceIllegal l) := stripEnds_subset _ c hc
  refine ⟨?_, collapseSpacesAux_no_space _ _ c hmem⟩
  rcases collapseSpacesAux_subset _ _ c hmem with rfl | hmem'
  · decide
  · exact replaceIllegal_no_illegal l c hmem'

/-- Helper: the sanitization core fixes its own output. -/
theorem sanitizeCore_idem (l : List Char) :
    sanitizeCore (sanitizeCore l) = sanitizeCore l := by
  have hclean := sanitizeCore_clean l
  conv_lhs => rw [sanitizeCore]
  rw [replaceIllegal_eq_self _ fun c hc => (hclean c hc).1]
  rw [show collapseSpaces (sanitizeCore l) = sanitizeCore l from
    collapseSpacesAux_eq_self _ _ fun c hc => (hclean c hc).2]
  exact stripEnds_eq_self _ (stripEnds_head_false _) (stripEnds_last_false _)

/-- C6 counterexample: sanitization is not idempotent — on a 51-character
name the 50-character truncation leaves a trailing underscore which a second
sanitization strips away. -/
theorem sanitize_not_idempotent :
    sanitizeFolderName (sanitizeFolderName badFolderName) ≠
      sanitizeFolderName badFolderName := by
  decide

/-- C6 amended: sanitization is idempotent on every input whose sanitized
core fits the 50-character cap (the counterexample shows the cap can expose a
strippable character and break idempotence), and an input consisting only of
filesystem-illegal characters, whitespace, dots and separators is mapped to
the fixed placeholder by both sanitizers. -/
theorem sanitize_idempotent_amended (l t : List Char)
    (h : (sanitizeCore l).length ≤ 50)
    (ht : ∀ c ∈ t, isIllegalChar c = true ∨ isPySpace c = true ∨ isStripChar c = true) :
    sanitizeFolderName (sanitizeFolderName l) = sanitizeFolderName l ∧
    sanitizeFolderName t = unnamedPhrase ∧
    sanitize_filename t = "unnamed".data := by
  have hcore_t : sanitizeCore t = [] := by
    have hall : ∀ c ∈ collapseSpaces (replaceIllegal t), isStripChar c = true := by
      intro c hc
      have hsp := collapseSpacesAux_no_space _ _ c hc
      rcases collapseSpacesAux_subset _ _ c hc with rfl | hmem
      · decide
      · rcases List.mem_map.mp hmem with ⟨d, hd, rfl⟩
        cases hil : isIllegalChar d
        · simp only [hil, Bool.false_eq_true, if_false]
          simp only [hil, Bool.false_eq_true, if_false] at hsp
          rcases ht d hd with h' | h' | h'
          · rw [hil] at h'; cases h'
          · rw [hsp] at h'; cases h'
          · exact h'
        · simp only [hil, if_true]
          decide
    unfold sanitizeCore
    have hdrop : (collapseSpaces (replaceIllegal t)).dropWhile isStripChar = [] :=
      List.dropWhile_eq_nil_iff.mpr fun x hx => hall x hx
    unfold stripEnds
    rw [hdrop]
    rfl
  refine ⟨?_, ?_, ?_⟩
  · by_cases hs : sanitizeCore l = []
    · have h1 : sanitizeFolderName l = unnamedPhrase := by
        simp only [sanitizeFolderName, hs, if_pos]
        decide
      rw [h1]
      decide
    · have htake : (sanitizeCore l).take 50 = sanitizeCore l := List.take_of_length_le h
      have h1 : sanitizeFolderName l = sanitizeCore l := by
        simp only [sanitizeFolderName, hs, if_neg, if_false]
        exact htake
      rw [h1]
      simp only [sanitizeFolderName, sanitizeCore_idem l, hs, if_false]
      exact htake
  · simp only [sanitizeFolderName, hcore_t, if_pos]
    decide
  · simp only [sanitize_filename, hcore_t, if_pos]

/-- Witness for the amended C6 on a concrete phrase and a concrete all-bad
input. -/
theorem sanitize_idempotent_amended_witness :
    sanitizeFolderName (sanitizeFolderName ("My Phrase: #1?".data)) =
      sanitizeFolderName ("My Phrase: #1?".data) ∧
    sanitizeFolderName ("??? ...".data) = unnamedPhrase ∧
    sanitize_filename ("??? ...".data) = "unnamed".data :=
  sanitize_idempotent_amended ("My Phrase: #1?".data) ("??? ...".data)
    (by decide) (by decide)

/-! ## Theorems: conflict-free file moves (C10) -/

/-- Helper: `digitVal` inverts `digitChar` on decimal digits. -/
theorem digitVal_digitChar (d : Nat) (hd : d < 10) : digitVal (digitChar d) = d := by
  interval_cases d <;> rfl

/-- Helper: evaluating a digit string after appending one digit. -/
theorem digitsToNat_append (a : List Char) (c : Char) :
    digitsToNat (a ++ [c]) = digitsToNat a * 10 + digitVal c := by
  simp [digitsToNat, List.foldl_append]

/-- Helper: `digitsToNat` inverts `natDigits`. -/
theorem digitsToNat_natDigits (n : Nat) : digitsToNat (natDigits n) = n := by
  induction n using Nat.strong_induction_on with
  | _ n ih =>
    rw [natDigits]
    split
    · next h => simp [digitsToNat, digitVal_digitChar n h]
    · next h =>
      rw [digitsToNat_append]
      rw [ih (n / 10) (Nat.div_lt_self (by omega) (by norm_num))]
      rw [digitVal_digitChar _ (Nat.mod_lt _ (by norm_num))]
      omega

/-- Helper: a decimal representation is never empty. -/
theorem natDigits_ne_nil (n : Nat) : natDigits n ≠ [] := by
  rw [natDigits]
  split <;> simp

/-- Helper: decimal representations are injective. -/
theorem natDigits_inj {a b : Nat} (h : natDigits a = natDigits b) : a = b := by
  have h2 := congrArg digitsToNat h
  rwa [digitsToNat_natDigits, digitsToNat_natDigits] at h2

/-- Helper: distinct counters give distinct candidate destination names. -/
theorem candidateName_inj (stem suffix : List Char) :
    Function.Injective (candidateName stem suffix) := by
  intro i j h
  unfold candidateName at h
  by_cases hi : i = 0 <;> by_cases hj : j = 0
  · rw [hi, hj]
  · rw [if_pos hi, if_neg hj] at h
    have hlen := congrArg List.length h
    simp [List.length_append] at hlen
    omega
  · rw [if_neg hi, if_pos hj] at h
    have hlen := congrArg List.length h
    simp [List.length_append] at hlen
    omega
  · rw [if_neg hi, if_neg hj] at h
    have h1 : '_' :: (natDigits i ++ suffix) = '_' :: (natDigits j ++ suffix) :=
      List.append_cancel_left h
    injection h1 with _ h2
    exact natDigits_inj (List.append_cancel_right h2)

/-- Helper: a name returned by the conflict loop is fresh, and every earlier
candidate was taken. -/
theorem findFreeName_some (occupied : List (List Char)) (stem suffix : List Char) :
    ∀ (fuel k : Nat) (p : List Char),
      findFreeName occupied stem suffix k fuel = some p →
      p ∉ occupied ∧
      ∃ m, k ≤ m ∧ p = candidateName stem suffix m ∧
        ∀ j, k ≤ j → j < m → candidateName stem suffix j ∈ occupied := by
  intro fuel
  induction fuel with
  | zero => intro k p h; simp [findFreeName] at h
  | succ f ih =>
    intro k p h
    simp only [findFreeName] at h
    by_cases hc : occupied.contains (candidateName stem suffix k) = true
    · rw [if_pos hc] at h
      obtain ⟨hnot, m, hkm, hp, hall⟩ := ih (k + 1) p h
      refine ⟨hnot, m, by omega, hp, ?_⟩
      intro j hj hjm
      by_cases hjk : j = k
      · subst hjk; simpa using hc
      · exact hall j (by omega) hjm
    · rw [if_neg hc] at h
      injection h with h
      subst h
      refine ⟨by simpa using hc, k, le_rfl, rfl, ?_⟩
      intro j hj hjk
      omega

/-- Helper: if the conflict loop runs out of fuel, every candidate it visited
was taken. -/
theorem findFreeName_none (occupied : List (List Char)) (stem suffix : List Char) :
    ∀ (fuel k : Nat), findFreeName occupied stem suffix k fuel = none →
      ∀ j, k ≤ j → j < k + fuel → candidateName stem suffix j ∈ occupied := by
  intro fuel
  induction fuel with
  | zero => intro k _ j hj hjf; omega
  | succ f ih =>
    intro k h j hj hjf
    simp only [findFreeName] at h
    by_cases hc : occupied.contains (candidateName stem suffix k) = true
    · rw [if_pos hc] at h
      by_cases hjk : j = k
      · subst hjk; simpa using hc
      · exact ih (k + 1) h j (by omega) (by omega)
    · rw [if_neg hc] at h
      cases h

/-- Helper: with fuel exceeding the directory size, the conflict loop always
finds a fresh name — the candidates are pairwise distinct, so a directory of
`n` entries cannot occupy `n + 2` of them. -/
theorem findFreeName_isSome (occupied : List (List Char)) (stem suffix : List Char) :
    findFreeName occupied stem suffix 0 (occupied.length + 2) ≠ none := by
  intro h
  have hall := findFreeName_none occupied stem suffix (occupied.length + 2) 0 h
  have hsub : (List.range (occupied.length + 2)).map (candidateName stem suffix) ⊆
      occupied := by
    intro x hx
    rcases List.mem_map.mp hx with ⟨j, hj, rfl⟩
    rw [List.mem_range] at hj
    exact hall j (by omega) (by omega)
  have hnodup :
      ((List.range (occupied.length + 2)).map (candidateName stem suffix)).Nodup :=
    (List.nodup_range _).map (candidateName_inj stem suffix)
  have hle := (List.subperm_of_subset hnodup hsub).length_le
  simp [List.length_map, List.length_range] at hle

/-- C10: moving a file never overwrites an existing entry — a missing source
yields `none` and no move, and an existing source is moved to the first
destination name not present in the folder, every earlier candidate (the
original name, then increasing numeric suffixes) being taken. -/
theorem move_file_no_overwrite (stem suffix : List Char) (occupied : List (List Char)) :
    move_file_to_folder false false stem suffix occupied = none ∧
    ∃ p, move_file_to_folder true false stem suffix occupied = some p ∧
      p ∉ occupied ∧
      ∃ k, p = candidateName stem suffix k ∧
        ∀ j < k, candidateName stem suffix j ∈ occupied := by
  constructor
  · rfl
  · cases hf : findFreeName occupied stem suffix 0 (occupied.length + 2) with
    | none => exact absurd hf (findFreeName_isSome occupied stem suffix)
    | some p =>
      obtain ⟨hnot, m, _, hp, hall⟩ := findFreeName_some occupied stem suffix _ 0 p hf
      refine ⟨p, ?_, hnot, m, hp, fun j hj => hall j (by omega) hj⟩
      simp [move_file_to_folder, hf]

end Stockpile
